import Mathlib

/-!
# Verification of the RL-Risk AI module (`riskai.py`)

Shallow embedding of the battle simulator (`AI.simulate`), its class-level
result cache, and the agent decision methods of the `AI` base class and the
`BetterAI` / `StupidAI` strategies, together with theorems settling the
specification claims.

Python `float` arithmetic on these values is modelled with `ℚ`: every number
produced by the simulator is a quotient of machine integers, so the rational
model is exact on the inputs considered. Python exceptions are modelled with
`Except PyErr`. The random source `random.randint(1, 6)` is modelled as a
stream of naturals read at an advancing position, mapped into `1..6`.
-/

namespace RLRisk

/-- Python exceptions observable in this module. -/
inductive PyErr where
  | zeroDivisionError
  | indexError
  | valueError
  | notImplementedError
deriving DecidableEq, Repr

/-- `true` exactly on `Except.ok` results. -/
def isOkE {ε α : Type} : Except ε α → Bool
  | .ok _ => true
  | .error _ => false

/-- The random source: an unbounded stream of naturals and a read position.
`random.randint(1, 6)` reads one element and maps it into `1..6`. -/
structure RNG where
  stream : Nat → Nat
  pos : Nat

/-- One call to `random.randint(1, 6)`: yields a die value in `1..6` and
advances the stream position. -/
def RNG.next (g : RNG) : Nat × RNG :=
  (1 + g.stream g.pos % 6, ⟨g.stream, g.pos + 1⟩)

/-- `[random.randint(1, 6) for i in range(n)]`: roll `n` dice left to right. -/
def rollDice : Nat → RNG → List Nat × RNG
  | 0, g => ([], g)
  | n + 1, g =>
    let v := RNG.next g
    let rest := rollDice n v.2
    (v.1 :: rest.1, rest.2)

/-- `sorted(rolls, reverse=True)`: sort die values in descending order. -/
def sortDesc (l : List Nat) : List Nat :=
  l.insertionSort (fun x y => x ≥ y)

/-- The `for aa, dd in zip(atk_roll, def_roll)` loop body of `AI.simulate`:
for each positional pair, a strictly greater attacker die removes a defender,
otherwise (tie or defender higher) an attacker is removed. -/
def applyPairs : List (Nat × Nat) → Nat × Nat → Nat × Nat
  | [], ad => ad
  | p :: ps, ad =>
    applyPairs ps (if p.1 > p.2 then (ad.1, ad.2 - 1) else (ad.1 - 1, ad.2))

/-- One iteration of the `while a > 1 and d > 0` loop of `AI.simulate`:
the attacker rolls `min(a - 1, 3)` dice, the defender rolls `min(d, 2)` dice,
both rolls are sorted descending, zipped positionally (unmatched dice are
discarded by `zip`), and the pair comparisons are applied. -/
def battleRound (a d : Nat) (g : RNG) : Nat × Nat × RNG :=
  let ar := rollDice (min (a - 1) 3) g
  let dr := rollDice (min d 2) ar.2
  let ad := applyPairs ((sortDesc ar.1).zip (sortDesc dr.1)) (a, d)
  (ad.1, ad.2, dr.2)

/-- The `while a > 1 and d > 0` loop of `AI.simulate`, with explicit fuel.
`none` means the fuel ran out; `runBattleAux_isSome` shows fuel `a + d + 1`
always suffices. -/
def runBattleAux : Nat → Nat → Nat → RNG → Option (Nat × Nat × RNG)
  | 0, _, _, _ => none
  | fuel + 1, a, d, g =>
    if 1 < a ∧ 0 < d then
      let r := battleRound a d g
      runBattleAux fuel r.1 r.2.1 r.2.2
    else some (a, d, g)

/-- The battle loop of `AI.simulate`, run to completion (fuel `a + d + 1`
always suffices, see `runBattleAux_isSome`, so the default is never used). -/
def runBattle (a d : Nat) (g : RNG) : Nat × Nat × RNG :=
  (runBattleAux (a + d + 1) a d g).getD (a, d, g)

/-- The `for i in range(tests)` loop of `AI.simulate`: runs `tests` battles
from `(nAtk, nDef)`, returning the surviving-attacker samples, the
surviving-defender samples, the victory count and the final random state.
A trial is an attacker win iff it ends with `d == 0`. -/
def runTrials : Nat → Nat → Nat → RNG → List Nat × List Nat × Nat × RNG
  | 0, _, _, g => ([], [], 0, g)
  | t + 1, nAtk, nDef, g =>
    let b := runBattle nAtk nDef g
    let rest := runTrials t nAtk nDef b.2.2
    if b.2.1 = 0 then (b.1 :: rest.1, rest.2.1, rest.2.2.1 + 1, rest.2.2.2)
    else (rest.1, b.2.1 :: rest.2.1, rest.2.2.1, rest.2.2.2)

/-- The cached result triple of `AI.simulate`:
`(probability_of_victory, avg_surviving_attackers, avg_surviving_defenders)`. -/
structure BattleStats where
  winProbability : ℚ
  avgAttackerSurvivors : ℚ
  avgDefenderSurvivors : ℚ
deriving DecidableEq, Repr

/-- Lookup in the class-level dict `AI._sim_cache`, keyed on
`(n_atk, n_def)`. -/
def cacheLookup : List ((Nat × Nat) × BattleStats) → Nat × Nat → Option BattleStats
  | [], _ => none
  | (k, v) :: rest, key => if k = key then some v else cacheLookup rest key

/-- The process-wide mutable state touched by `AI.simulate`: the shared
`AI._sim_cache` dict and the `random` module's generator state. -/
structure SimState where
  cache : List ((Nat × Nat) × BattleStats)
  rng : RNG

/-- The aggregation step of `AI.simulate` over the trial samples: the tuple
`(float(victory) / tests, float(sum(a_survive)) / victory if victory else 0,
float(sum(d_survive)) / (tests - victory) if tests - victory else 0)`. -/
def aggregate (tests : Nat) (aS dS : List Nat) (v : Nat) : BattleStats :=
  { winProbability := (v : ℚ) / (tests : ℚ)
    avgAttackerSurvivors := if v ≠ 0 then (aS.sum : ℚ) / (v : ℚ) else 0
    avgDefenderSurvivors :=
      if tests - v ≠ 0 then (dS.sum : ℚ) / ((tests - v : Nat) : ℚ) else 0 }

/-- `AI.simulate(n_atk, n_def, tests)` (Python default `tests=1000`): return
the cached value for `(n_atk, n_def)` if present; otherwise run `tests`
trials, aggregate, store under `(n_atk, n_def)` and return. The unguarded
`float(victory) / tests` raises `ZeroDivisionError` when `tests == 0`. -/
def simulate (nAtk nDef tests : Nat) (st : SimState) : Except PyErr (BattleStats × SimState) :=
  match cacheLookup st.cache (nAtk, nDef) with
  | some v => .ok (v, st)
  | none =>
    let r := runTrials tests nAtk nDef st.rng
    if tests = 0 then .error .zeroDivisionError
    else
      let stats := aggregate tests r.1 r.2.1 r.2.2.1
      .ok (stats, ⟨((nAtk, nDef), stats) :: st.cache, r.2.2.2⟩)

/-- An all-zero random stream, used for concrete evaluations. -/
def rng0 : RNG := ⟨fun _ => 0, 0⟩

/-- A process-start simulation state: empty cache, zero stream. -/
def init0 : SimState := ⟨[], rng0⟩

/-!
## Agent decision methods

The world model (areas, territories, players) is an external collaborator of
the repository; it is embedded with exactly the fields the agent methods
read: `t.area.name`, `t.border`, `player.territories`, and the world's area
names. `random.choice` / the shuffled `area_priority` are driven by a choice
stream `cs : Nat → Nat` read at successive indices.
-/

/-- A continent grouping, identified by name. -/
structure Area where
  name : String
deriving DecidableEq, Repr

/-- A game territory, with the fields the agent methods read. -/
structure Territory where
  name : String
  area : Area
  border : Bool
deriving DecidableEq, Repr

instance : Inhabited Territory := ⟨⟨"", ⟨""⟩, false⟩⟩

/-- A player's view: the set of owned territories. -/
structure Player where
  territories : List Territory
deriving DecidableEq, Repr

/-- An `attack()` order `(src, dest, atk_strategy, move_strategy)`. -/
structure AttackOrder where
  src : Territory
  dest : Territory
  atkStrategy : Option (Nat → Nat → Bool)
  moveStrategy : Option (Nat → Nat)

/-- `random.choice(l)` with the draw taken from the choice stream `cs` at
index `i`: raises `IndexError` on an empty list, otherwise picks the element
at `cs i` reduced modulo the length. -/
def randomChoice (cs : Nat → Nat) (i : Nat) (l : List Territory) : Except PyErr Territory :=
  match l with
  | [] => .error .indexError
  | _ :: _ => .ok (l.getD (cs i % l.length) default)

/-- Base-class `AI.initial_placement`: `raise NotImplementedError`. -/
def AI.initial_placement (empty : Option (List Territory)) (remaining : Nat) :
    Except PyErr Territory :=
  .error .notImplementedError

/-- Base-class `AI.reinforce`: `raise NotImplementedError`. -/
def AI.reinforce (available : Nat) : Except PyErr (List (Territory × Nat)) :=
  .error .notImplementedError

/-- Base-class `AI.attack`: `raise NotImplementedError`. -/
def AI.attack : Except PyErr (List AttackOrder) :=
  .error .notImplementedError

/-- Base-class `AI.freemove`: `return None` (skip this part of the turn). -/
def AI.freemove : Except PyErr (Option (Territory × Territory × Nat)) :=
  .ok none

/-- The per-instance state a `BetterAI` reads in its decision methods: its
player and the shuffled list of area names built by `start()`. -/
structure BetterAIState where
  player : Player
  area_priority : List String

/-- Python `sorted(l, key=key)` for a natural-valued key (stable insertion
sort on key order). -/
def sortByKey (key : Territory → Nat) (l : List Territory) : List Territory :=
  l.insertionSort (fun t u => key t ≤ key u)

/-- `BetterAI.priority()`: the owned border territories, sorted by the
priority index of their area name, filtered to the first one's area; the
source's fallback to all owned territories is kept although unreachable.
`sorted`'s key raises `ValueError` on an area name missing from
`area_priority`, and `priority[0]` raises `IndexError` when the player owns
no border territory. -/
def BetterAI.priority (s : BetterAIState) : Except PyErr (List Territory) :=
  let borderTs := s.player.territories.filter (fun t => t.border)
  if borderTs.all (fun t => s.area_priority.contains t.area.name) then
    match sortByKey (fun t => s.area_priority.indexOf t.area.name) borderTs with
    | [] => .error .indexError
    | t0 :: rest =>
      let pr := (t0 :: rest).filter (fun t => t.area == t0.area)
      .ok (if pr.isEmpty then s.player.territories else pr)
  else .error .valueError

/-- `result[t] += 1` on a `defaultdict(int)` represented as an association
list: bump the existing entry, or append a fresh entry with count 1. -/
def dictBump : List (Territory × Nat) → Territory → List (Territory × Nat)
  | [], t => [(t, 1)]
  | (u, n) :: rest, t =>
    if u = t then (u, n + 1) :: rest else (u, n) :: dictBump rest t

/-- The counting loop shared by both `reinforce` bodies: `available` times,
pick a random member of `pool` and bump its count. -/
def reinforceLoop (pool : List Territory) (cs : Nat → Nat) :
    Nat → Nat → List (Territory × Nat) → Except PyErr (List (Territory × Nat))
  | 0, _, acc => .ok acc
  | n + 1, i, acc =>
    match randomChoice cs i pool with
    | .error e => .error e
    | .ok t => reinforceLoop pool cs n (i + 1) (dictBump acc t)

/-- `BetterAI.reinforce(available)`: distribute `available` pieces uniformly
at random over `self.priority()`. -/
def BetterAI.reinforce (s : BetterAIState) (cs : Nat → Nat) (available : Nat) :
    Except PyErr (List (Territory × Nat)) :=
  match BetterAI.priority s with
  | .error e => .error e
  | .ok pr => reinforceLoop pr cs available 0 []

/-- `StupidAI.reinforce(available)`: distribute `available` pieces uniformly
at random over the owned border territories. -/
def StupidAI.reinforce (p : Player) (cs : Nat → Nat) (available : Nat) :
    Except PyErr (List (Territory × Nat)) :=
  reinforceLoop (p.territories.filter (fun t => t.border)) cs available 0 []

/-- `BetterAI.initial_placement(empty, available)`: with a non-empty `empty`
list, the first empty territory in area-priority order; otherwise a random
member of `self.priority()`. (`None` and `[]` are both falsy in Python.) -/
def BetterAI.initial_placement (s : BetterAIState) (cs : Nat → Nat)
    (empty : Option (List Territory)) : Except PyErr Territory :=
  match empty with
  | some (t :: ts) =>
    if (t :: ts).all (fun u => s.area_priority.contains u.area.name) then
      .ok ((sortByKey (fun u => s.area_priority.indexOf u.area.name) (t :: ts)).headD default)
    else .error .valueError
  | _ =>
    match BetterAI.priority s with
    | .error e => .error e
    | .ok pr => randomChoice cs 0 pr

/-- `StupidAI.initial_placement(empty, remaining)`: a random member of
`empty` when non-empty, otherwise a random owned territory. -/
def StupidAI.initial_placement (p : Player) (cs : Nat → Nat)
    (empty : Option (List Territory)) : Except PyErr Territory :=
  match empty with
  | some (t :: ts) => randomChoice cs 0 (t :: ts)
  | _ => randomChoice cs 0 p.territories

/-- The all-zero choice stream, for concrete evaluations. -/
def c0 : Nat → Nat := fun _ => 0

/-- A territory with no border flag, in area `"X"`. -/
def tNB : Territory := ⟨"A", ⟨"X"⟩, false⟩

/-- A player owning exactly one non-border territory. -/
def pNB : Player := ⟨[tNB]⟩

/-- A territory on the border, in area `"X"`. -/
def tB : Territory := ⟨"B", ⟨"X"⟩, true⟩

/-- A player owning exactly one border territory. -/
def pB : Player := ⟨[tB]⟩

/-- A `BetterAI` whose player owns one border territory. -/
def sB : BetterAIState := ⟨pB, ["X"]⟩

/-! ## Lemmas about the combat simulator -/

theorem rollDice_length (n : Nat) (g : RNG) : (rollDice n g).1.length = n := by
  induction n generalizing g with
  | zero => rfl
  | succ n ih => simp [rollDice, ih]

theorem rollDice_rng (n : Nat) (g : RNG) :
    (rollDice n g).2 = ⟨g.stream, g.pos + n⟩ := by
  induction n generalizing g with
  | zero => rfl
  | succ n ih =>
    simp only [rollDice, ih, RNG.next]
    have h : g.pos + 1 + n = g.pos + (n + 1) := by omega
    rw [h]

theorem sortDesc_length (l : List Nat) : (sortDesc l).length = l.length :=
  List.length_insertionSort _ l

theorem sortDesc_mem (l : List Nat) (x : Nat) : x ∈ sortDesc l ↔ x ∈ l :=
  (List.perm_insertionSort _ l).mem_iff

theorem applyPairs_eq (ps : List (Nat × Nat)) (a d : Nat) :
    applyPairs ps (a, d) =
      (a - ps.countP (fun p => decide (p.1 ≤ p.2)),
       d - ps.countP (fun p => decide (p.2 < p.1))) := by
  induction ps generalizing a d with
  | nil => simp [applyPairs]
  | cons p ps ih =>
    simp only [applyPairs, List.countP_cons, decide_eq_true_eq]
    rcases Nat.lt_or_ge p.2 p.1 with h | h
    · rw [if_pos (by omega : p.1 > p.2), ih]
      rw [if_neg (by omega : ¬ p.1 ≤ p.2), if_pos (by omega : p.2 < p.1)]
      simp only [Prod.mk.injEq]
      constructor <;> omega
    · rw [if_neg (by omega : ¬ p.1 > p.2), ih]
      rw [if_pos (by omega : p.1 ≤ p.2), if_neg (by omega : ¬ p.2 < p.1)]
      simp only [Prod.mk.injEq]
      constructor <;> omega

theorem countP_pairs_split (ps : List (Nat × Nat)) :
    ps.countP (fun p => decide (p.1 ≤ p.2)) +
      ps.countP (fun p => decide (p.2 < p.1)) = ps.length := by
  induction ps with
  | nil => rfl
  | cons p ps ih =>
    simp only [List.countP_cons, List.length_cons, decide_eq_true_eq]
    rcases Nat.lt_or_ge p.2 p.1 with h | h
    · rw [if_neg (by omega : ¬ p.1 ≤ p.2), if_pos (by omega : p.2 < p.1)]
      omega
    · rw [if_pos (by omega : p.1 ≤ p.2), if_neg (by omega : ¬ p.2 < p.1)]
      omega

theorem applyPairs_sum_lt (ps : List (Nat × Nat)) (a d : Nat)
    (hne : ps ≠ []) (ha : 1 ≤ a) (hd : 1 ≤ d) :
    (applyPairs ps (a, d)).1 + (applyPairs ps (a, d)).2 < a + d := by
  rw [applyPairs_eq]
  have hs := countP_pairs_split ps
  have hl : 1 ≤ ps.length := List.length_pos.mpr hne
  simp only
  omega

theorem battleRound_sum_lt (a d : Nat) (g : RNG) (ha : 1 < a) (hd : 0 < d) :
    (battleRound a d g).1 + (battleRound a d g).2.1 < a + d := by
  simp only [battleRound]
  have hz : ((sortDesc (rollDice (min (a - 1) 3) g).1).zip
      (sortDesc (rollDice (min d 2) (rollDice (min (a - 1) 3) g).2).1)).length =
      min (min (a - 1) 3) (min d 2) := by
    rw [List.length_zip, sortDesc_length, sortDesc_length, rollDice_length, rollDice_length]
  have hne : (sortDesc (rollDice (min (a - 1) 3) g).1).zip
      (sortDesc (rollDice (min d 2) (rollDice (min (a - 1) 3) g).2).1) ≠ [] := by
    intro hempty
    rw [hempty] at hz
    simp at hz
    omega
  exact applyPairs_sum_lt _ a d hne (by omega) (by omega)

theorem battleRound_pos (a d : Nat) (g : RNG) :
    (battleRound a d g).2.2.pos = g.pos + (min (a - 1) 3 + min d 2) := by
  simp only [battleRound, rollDice_rng]
  omega

theorem runBattleAux_isSome (fuel : Nat) :
    ∀ a d g, a + d < fuel → (runBattleAux fuel a d g).isSome = true := by
  induction fuel with
  | zero =>
    intro a d g h
    omega
  | succ fuel ih =>
    intro a d g h
    by_cases hg : 1 < a ∧ 0 < d
    · have hlt := battleRound_sum_lt a d g hg.1 hg.2
      simp only [runBattleAux, if_pos hg]
      exact ih _ _ _ (by omega)
    · simp [runBattleAux, if_neg hg]

theorem runBattle_one_atk (d : Nat) (g : RNG) : runBattle 1 d g = (1, d, g) := rfl

theorem runTrials_one_atk (t d : Nat) (g : RNG) (hd : 0 < d) :
    runTrials t 1 d g = ([], List.replicate t d, 0, g) := by
  induction t with
  | zero => rfl
  | succ t ih =>
    simp only [runTrials, runBattle_one_atk]
    rw [if_neg (by omega)]
    rw [ih]
    simp [List.replicate_succ]

theorem runTrials_victory_le (t nA nD : Nat) : ∀ g, (runTrials t nA nD g).2.2.1 ≤ t := by
  induction t with
  | zero =>
    intro g
    simp [runTrials]
  | succ t ih =>
    intro g
    simp only [runTrials]
    by_cases h : (runBattle nA nD g).2.1 = 0
    · rw [if_pos h]
      exact Nat.succ_le_succ (ih _)
    · rw [if_neg h]
      exact Nat.le_succ_of_le (ih _)

/-! ## Lemmas about the simulation cache -/

theorem cacheLookup_cons_self (c : List ((Nat × Nat) × BattleStats)) (k : Nat × Nat)
    (v : BattleStats) : cacheLookup ((k, v) :: c) k = some v := by
  simp [cacheLookup]

theorem simulate_hit (a d t : Nat) (st : SimState) (v : BattleStats)
    (h : cacheLookup st.cache (a, d) = some v) :
    simulate a d t st = .ok (v, st) := by
  unfold simulate
  rw [h]

theorem simulate_miss (a d t : Nat) (st : SimState)
    (hc : cacheLookup st.cache (a, d) = none) (ht : t ≠ 0) :
    simulate a d t st =
      .ok (aggregate t (runTrials t a d st.rng).1 (runTrials t a d st.rng).2.1
             (runTrials t a d st.rng).2.2.1,
           ⟨((a, d), aggregate t (runTrials t a d st.rng).1 (runTrials t a d st.rng).2.1
               (runTrials t a d st.rng).2.2.1) :: st.cache,
            (runTrials t a d st.rng).2.2.2⟩) := by
  unfold simulate
  rw [hc]
  simp [ht]

theorem simulate_ok_cases (a d t : Nat) (st : SimState) (stats : BattleStats) (st' : SimState)
    (h : simulate a d t st = .ok (stats, st')) :
    (cacheLookup st.cache (a, d) = some stats ∧ st' = st) ∨
    (cacheLookup st.cache (a, d) = none ∧ t ≠ 0 ∧
      stats = aggregate t (runTrials t a d st.rng).1 (runTrials t a d st.rng).2.1
        (runTrials t a d st.rng).2.2.1 ∧
      st' = ⟨((a, d), stats) :: st.cache, (runTrials t a d st.rng).2.2.2⟩) := by
  cases hc : cacheLookup st.cache (a, d) with
  | some v =>
    rw [simulate_hit a d t st v hc] at h
    have h' := Except.ok.inj h
    left
    exact ⟨congrArg some (congrArg Prod.fst h'), (congrArg Prod.snd h').symm⟩
  | none =>
    by_cases ht : t = 0
    · exfalso
      unfold simulate at h
      rw [hc] at h
      simp [ht] at h
    · rw [simulate_miss a d t st hc ht] at h
      have h' := Except.ok.inj h
      have h1 := congrArg Prod.fst h'
      have h2 := congrArg Prod.snd h'
      dsimp only at h1 h2
      right
      refine ⟨rfl, ht, h1.symm, ?_⟩
      rw [← h2, h1]

theorem simulate_stores (a d t : Nat) (st : SimState) (stats : BattleStats) (st' : SimState)
    (h : simulate a d t st = .ok (stats, st')) :
    cacheLookup st'.cache (a, d) = some stats := by
  rcases simulate_ok_cases a d t st stats st' h with ⟨h1, h2⟩ | ⟨_, _, _, h2⟩
  · rw [h2]
    exact h1
  · rw [h2]
    exact cacheLookup_cons_self _ _ _

theorem simulate_preserves (a₂ d₂ t₂ : Nat) (st₂ : SimState) (r₂ : BattleStats) (st₃ : SimState)
    (k : Nat × Nat) (v : BattleStats)
    (h : simulate a₂ d₂ t₂ st₂ = .ok (r₂, st₃)) (hk : cacheLookup st₂.cache k = some v) :
    cacheLookup st₃.cache k = some v := by
  rcases simulate_ok_cases a₂ d₂ t₂ st₂ r₂ st₃ h with ⟨_, h2⟩ | ⟨hc, _, _, h2⟩
  · rw [h2]
    exact hk
  · rw [h2]
    by_cases hkk : (a₂, d₂) = k
    · rw [← hkk] at hk
      rw [hc] at hk
      cases hk
    · simp only [cacheLookup, if_neg hkk]
      exact hk

/-! ## Lemmas about the agent decision methods -/

theorem headD_mem (l : List Territory) (d : Territory) (hne : l ≠ []) : l.headD d ∈ l := by
  cases l with
  | nil => exact absurd rfl hne
  | cons x xs => simp [List.headD]

theorem randomChoice_mem (cs : Nat → Nat) (i : Nat) (l : List Territory) (hne : l ≠ []) :
    ∃ t ∈ l, randomChoice cs i l = .ok t := by
  cases l with
  | nil => exact absurd rfl hne
  | cons x xs =>
    have hlen : cs i % (x :: xs).length < (x :: xs).length :=
      Nat.mod_lt _ (by simp)
    refine ⟨(x :: xs).getD (cs i % (x :: xs).length) default, ?_, rfl⟩
    rw [List.getD_eq_getElem _ _ hlen]
    exact List.getElem_mem _

theorem sortByKey_mem (key : Territory → Nat) (l : List Territory) (x : Territory) :
    x ∈ sortByKey key l ↔ x ∈ l :=
  (List.perm_insertionSort _ l).mem_iff

theorem sortByKey_length (key : Territory → Nat) (l : List Territory) :
    (sortByKey key l).length = l.length :=
  List.length_insertionSort _ l

theorem dictBump_sum (m : List (Territory × Nat)) (t : Territory) :
    ((dictBump m t).map Prod.snd).sum = ((m.map Prod.snd).sum) + 1 := by
  induction m with
  | nil => rfl
  | cons p m ih =>
    by_cases h : p.1 = t
    · simp only [dictBump, if_pos h, List.map_cons, List.sum_cons]
      omega
    · simp only [dictBump, if_neg h, List.map_cons, List.sum_cons, ih]
      omega

theorem dictBump_keys (m : List (Territory × Nat)) (t : Territory) (x : Territory × Nat)
    (hx : x ∈ dictBump m t) : x.1 ∈ m.map Prod.fst ∨ x.1 = t := by
  induction m with
  | nil =>
    simp only [dictBump, List.mem_singleton] at hx
    right
    rw [hx]
  | cons p m ih =>
    by_cases h : p.1 = t
    · simp only [dictBump, if_pos h] at hx
      rcases List.mem_cons.mp hx with h' | h'
      · left
        rw [h']
        exact List.mem_map.mpr ⟨p, List.mem_cons_self p m, rfl⟩
      · left
        exact List.mem_map_of_mem Prod.fst (List.mem_cons_of_mem p h')
    · simp only [dictBump, if_neg h] at hx
      rcases List.mem_cons.mp hx with h' | h'
      · left
        rw [h']
        exact List.mem_map.mpr ⟨p, List.mem_cons_self p m, rfl⟩
      · rcases ih h' with h'' | h''
        · left
          rcases List.mem_map.mp h'' with ⟨y, hy, hyx⟩
          exact List.mem_map.mpr ⟨y, List.mem_cons_of_mem p hy, hyx⟩
        · right
          exact h''

theorem reinforceLoop_ok (pool : List Territory) (cs : Nat → Nat) (hne : pool ≠ []) :
    ∀ (n i : Nat) (acc : List (Territory × Nat)),
      ∃ m, reinforceLoop pool cs n i acc = .ok m ∧
        (m.map Prod.snd).sum = (acc.map Prod.snd).sum + n ∧
        ∀ x ∈ m, x.1 ∈ acc.map Prod.fst ∨ x.1 ∈ pool := by
  intro n
  induction n with
  | zero =>
    intro i acc
    exact ⟨acc, rfl, by omega, fun x hx => .inl (List.mem_map_of_mem _ hx)⟩
  | succ n ih =>
    intro i acc
    obtain ⟨t, htmem, hrc⟩ := randomChoice_mem cs i pool hne
    obtain ⟨m, hm, hsum, hkeys⟩ := ih (i + 1) (dictBump acc t)
    refine ⟨m, ?_, ?_, ?_⟩
    · simp only [reinforceLoop, hrc]
      exact hm
    · rw [hsum, dictBump_sum]
      omega
    · intro x hx
      rcases hkeys x hx with hk | hk
      · rcases List.mem_map.mp hk with ⟨y, hy, hyx⟩
        rcases dictBump_keys acc t y hy with h' | h'
        · left
          rw [← hyx]
          exact h'
        · right
          rw [← hyx, h']
          exact htmem
      · right
        exact hk

theorem priority_ok (s : BetterAIState)
    (hb : ∃ t ∈ s.player.territories, t.border = true)
    (hn : ∀ t ∈ s.player.territories, t.border = true →
      s.area_priority.contains t.area.name = true) :
    ∃ pr, BetterAI.priority s = .ok pr ∧ pr ≠ [] ∧
      ∀ t ∈ pr, t ∈ s.player.territories := by
  unfold BetterAI.priority
  have hbne : s.player.territories.filter (fun t => t.border) ≠ [] := by
    obtain ⟨t, htm, htb⟩ := hb
    intro hempty
    have hmem : t ∈ s.player.territories.filter (fun t => t.border) :=
      List.mem_filter.mpr ⟨htm, htb⟩
    rw [hempty] at hmem
    cases hmem
  have hall : (s.player.territories.filter (fun t => t.border)).all
      (fun t => s.area_priority.contains t.area.name) = true := by
    rw [List.all_eq_true]
    intro t htm
    have hmem := List.mem_filter.mp htm
    exact hn t hmem.1 hmem.2
  rw [if_pos hall]
  have hsne : sortByKey (fun t => s.area_priority.indexOf t.area.name)
      (s.player.territories.filter (fun t => t.border)) ≠ [] := by
    intro hempty
    have := sortByKey_length (fun t => s.area_priority.indexOf t.area.name)
      (s.player.territories.filter (fun t => t.border))
    rw [hempty] at this
    exact hbne (List.eq_nil_of_length_eq_zero this.symm)
  cases hsort : sortByKey (fun t => s.area_priority.indexOf t.area.name)
      (s.player.territories.filter (fun t => t.border)) with
  | nil => exact absurd hsort hsne
  | cons t0 rest =>
    have ht0 : t0 ∈ (t0 :: rest).filter (fun t => t.area == t0.area) :=
      List.mem_filter.mpr ⟨List.mem_cons_self t0 rest, by simp⟩
    have hfne : ((t0 :: rest).filter (fun t => t.area == t0.area)).isEmpty = false := by
      cases hf : (t0 :: rest).filter (fun t => t.area == t0.area) with
      | nil =>
        rw [hf] at ht0
        cases ht0
      | cons y ys => rfl
    refine ⟨(t0 :: rest).filter (fun t => t.area == t0.area), ?_, ?_, ?_⟩
    · simp only [hfne]
      rfl
    · intro hempty
      rw [hempty] at ht0
      cases ht0
    · intro t htm
      have h1 : t ∈ t0 :: rest := (List.mem_filter.mp htm).1
      have h2 : t ∈ s.player.territories.filter (fun t => t.border) := by
        rw [← hsort] at h1
        exact (sortByKey_mem _ _ t).mp h1
      exact (List.mem_filter.mp h2).1

theorem simulate_one_atk (d t : Nat) (st : SimState) (hd : 0 < d) (ht : 0 < t)
    (hc : cacheLookup st.cache (1, d) = none) :
    simulate 1 d t st =
      .ok (aggregate t [] (List.replicate t d) 0,
        ⟨((1, d), aggregate t [] (List.replicate t d) 0) :: st.cache, st.rng⟩) := by
  have hm := simulate_miss 1 d t st hc (by omega)
  rw [runTrials_one_atk t d st.rng hd] at hm
  simpa using hm

/-- The `aggregate` of an all-defender-wins sample set, in closed form. -/
theorem aggregate_one_atk (d t : Nat) (hd : 0 < d) (ht : 0 < t) :
    aggregate t [] (List.replicate t d) 0 = ⟨0, 0, (d : ℚ)⟩ := by
  unfold aggregate
  have ht0 : (t : ℚ) ≠ 0 := Nat.cast_ne_zero.mpr (by omega)
  simp only [BattleStats.mk.injEq]
  refine ⟨by simp, by simp, ?_⟩
  rw [Nat.sub_zero, if_pos (by omega : t ≠ 0), List.sum_const_nat]
  push_cast
  rw [mul_comm]
  exact mul_div_cancel_right₀ (d : ℚ) ht0

/-! ## Claim theorems -/

/-- C1 (amended): `simulate` performs no input validation at all. Any call
with `trials ≥ 1` silently returns a `BattleStats`, even when
`attackerCount < 1` or `defenderCount < 1`; the only failure is an unguarded
`ZeroDivisionError` when `trials = 0` on an uncached key, which is a division
error, not an input-validation error. -/
theorem c1_no_input_validation (nA nD t : Nat) (st : SimState) :
    (1 ≤ t → isOkE (simulate nA nD t st) = true) ∧
    (t = 0 → cacheLookup st.cache (nA, nD) = none →
      simulate nA nD t st = .error .zeroDivisionError) := by
  constructor
  · intro ht
    cases hc : cacheLookup st.cache (nA, nD) with
    | some v =>
      rw [simulate_hit nA nD t st v hc]
      rfl
    | none =>
      rw [simulate_miss nA nD t st hc (by omega)]
      rfl
  · intro ht hc
    unfold simulate
    rw [hc]
    simp [ht]

/-- Witness for C1 (amended): `simulate(0, 1, 1)` violates the precondition
`attackerCount ≥ 1` yet returns ok; `simulate(5, 5, 0)` fails with a
division error rather than an input-validation error. -/
theorem c1_no_input_validation_witness :
    (1 ≤ 1 ∧ isOkE (simulate 0 1 1 init0) = true) ∧
    simulate 5 5 0 init0 = .error .zeroDivisionError :=
  ⟨⟨by omega, (c1_no_input_validation 0 1 1 init0).1 (by omega)⟩,
   (c1_no_input_validation 5 5 0 init0).2 rfl rfl⟩

/-- Counterexample to C1 as stated: the call `simulate(0, 1, 1)` violates
`attackerCount ≥ 1`, yet its outcome is an ok `BattleStats` value, not an
input-validation error. -/
theorem c1_counterexample : isOkE (simulate 0 1 1 init0) = true := rfl

/-- C2: caching is idempotent and append-only. After
`simulate a d t = ok (stats, st')`, (i) the cache of `st'` holds `stats`
under key `(a, d)`; (ii) from any state whose cache holds `stats` under
`(a, d)`, `simulate a d t'` returns exactly `stats` with the state unchanged
(in particular the random source is not consumed: no re-simulation);
(iii) any later successful `simulate` call on any key preserves the entry
(no cache entry is removed or overwritten). -/
theorem c2_cache_idempotent_append_only (a d t : Nat) (st : SimState) (stats : BattleStats)
    (st' : SimState) (h : simulate a d t st = .ok (stats, st')) :
    cacheLookup st'.cache (a, d) = some stats ∧
    (∀ t' st₂, cacheLookup st₂.cache (a, d) = some stats →
      simulate a d t' st₂ = .ok (stats, st₂)) ∧
    (∀ a₂ d₂ t₂ st₂ r₂ st₃, cacheLookup st₂.cache (a, d) = some stats →
      simulate a₂ d₂ t₂ st₂ = .ok (r₂, st₃) →
      cacheLookup st₃.cache (a, d) = some stats) := by
  refine ⟨simulate_stores a d t st stats st' h, ?_, ?_⟩
  · intro t' st₂ h₂
    exact simulate_hit a d t' st₂ stats h₂
  · intro a₂ d₂ t₂ st₂ r₂ st₃ h₂ h₃
    exact simulate_preserves a₂ d₂ t₂ st₂ r₂ st₃ (a, d) stats h₃ h₂

/-- The stats computed by the first concrete call of the C2 witness. -/
def stats1 : BattleStats := aggregate 1 [] (List.replicate 1 1) 0

/-- The state after the first concrete call of the C2 witness. -/
def st1 : SimState := ⟨[((1, 1), stats1)], rng0⟩

/-- Witness for C2 at the concrete run `simulate 1 1 1` from a fresh state:
the result is stored, and a repeat call returns it with the state (and hence
the random source) untouched. -/
theorem c2_cache_idempotent_append_only_witness :
    simulate 1 1 1 init0 = .ok (stats1, st1) ∧
    cacheLookup st1.cache (1, 1) = some stats1 ∧
    simulate 1 1 5 st1 = .ok (stats1, st1) :=
  have hsim : simulate 1 1 1 init0 = .ok (stats1, st1) :=
    simulate_one_atk 1 1 init0 (by omega) (by omega) rfl
  ⟨hsim,
   (c2_cache_idempotent_append_only 1 1 1 init0 stats1 st1 hsim).1,
   (c2_cache_idempotent_append_only 1 1 1 init0 stats1 st1 hsim).2.1 5 st1
     ((c2_cache_idempotent_append_only 1 1 1 init0 stats1 st1 hsim).1)⟩

/-- C3: degenerate attacker. A fresh (uncached) `simulate 1 d t` with
`d, t ≥ 1` returns `winProbability = 0` and `avgDefenderSurvivors = d`
(and `avgAttackerSurvivors = 0`), stores that value, and does not consume
the random source: the per-trial loop exits immediately and every trial is
a defender win with the full defender force surviving. -/
theorem c3_degenerate_attacker (d t : Nat) (st : SimState)
    (hd : 1 ≤ d) (ht : 1 ≤ t) (hc : cacheLookup st.cache (1, d) = none) :
    simulate 1 d t st =
      .ok (⟨0, 0, (d : ℚ)⟩, ⟨((1, d), ⟨0, 0, (d : ℚ)⟩) :: st.cache, st.rng⟩) := by
  rw [simulate_one_atk d t st (by omega) (by omega) hc,
    aggregate_one_atk d t (by omega) (by omega)]

/-- Witness for C3: `simulate 1 2 3` from a fresh state yields win
probability `0` and `2` average defender survivors. -/
theorem c3_degenerate_attacker_witness :
    1 ≤ 2 ∧ 1 ≤ 3 ∧
    simulate 1 2 3 init0 =
      .ok (⟨0, 0, (2 : ℚ)⟩, ⟨[((1, 2), ⟨0, 0, (2 : ℚ)⟩)], rng0⟩) :=
  ⟨by omega, by omega, c3_degenerate_attacker 2 3 init0 (by omega) (by omega) rfl⟩

/-- C4: single-exchange combat resolution. In an exchange with `a > 1`,
`d > 0`: the attacker rolls `min(a-1, 3)` dice and the round consumes
exactly `min(a-1, 3) + min(d, 2)` random draws (defender rolls `min(d, 2)`);
pairing the sorted rolls positionally, each pair where the attacker's die is
strictly greater removes a defender and every other pair (tie or defender
higher) removes an attacker; with attacker dice `[6,5,4]` and defender dice
`[6,3]` the exchange costs exactly one attacker and one defender. -/
theorem c4_single_exchange (a d : Nat) (g : RNG) (ha : 1 < a) (hd : 0 < d) :
    (rollDice (min (a - 1) 3) g).1.length = min (a - 1) 3 ∧
    (battleRound a d g).2.2.pos = g.pos + (min (a - 1) 3 + min d 2) ∧
    (∀ ps : List (Nat × Nat), applyPairs ps (a, d) =
      (a - ps.countP (fun p => decide (p.1 ≤ p.2)),
       d - ps.countP (fun p => decide (p.2 < p.1)))) ∧
    applyPairs ((sortDesc [6, 5, 4]).zip (sortDesc [6, 3])) (a, d) = (a - 1, d - 1) := by
  refine ⟨rollDice_length _ _, battleRound_pos a d g, fun ps => applyPairs_eq ps a d, ?_⟩
  have hz : (sortDesc [6, 5, 4]).zip (sortDesc [6, 3]) = [(6, 6), (5, 3)] := by decide
  have hc1 : ([(6, 6), (5, 3)] : List (Nat × Nat)).countP
      (fun p => decide (p.1 ≤ p.2)) = 1 := by decide
  have hc2 : ([(6, 6), (5, 3)] : List (Nat × Nat)).countP
      (fun p => decide (p.2 < p.1)) = 1 := by decide
  rw [hz, applyPairs_eq, hc1, hc2]

/-- Witness for C4 at `a = 2`, `d = 1`: the fixed-dice exchange
`[6,5,4]` vs `[6,3]` removes one attacker and one defender. -/
theorem c4_single_exchange_witness :
    1 < 2 ∧ 0 < 1 ∧
    applyPairs ((sortDesc [6, 5, 4]).zip (sortDesc [6, 3])) (2, 1) = (2 - 1, 1 - 1) :=
  ⟨by omega, by omega, (c4_single_exchange 2 1 rng0 (by omega) (by omega)).2.2.2⟩

/-- C5: aggregation. For a fresh (uncached) valid call, the returned stats
are `winProbability = wins / trials` (hence within `[0, 1]`),
`avgAttackerSurvivors = (sum of attacker-survivor samples) / wins`, `0` when
`wins = 0`, and `avgDefenderSurvivors = (sum of defender-survivor samples) /
(trials - wins)`, `0` when `wins = trials`. -/
theorem c5_aggregation (nA nD t : Nat) (st : SimState)
    (hA : 1 ≤ nA) (hD : 1 ≤ nD) (hT : 1 ≤ t)
    (hc : cacheLookup st.cache (nA, nD) = none) :
    ∃ aS dS wins g', runTrials t nA nD st.rng = (aS, dS, wins, g') ∧ wins ≤ t ∧
      simulate nA nD t st = .ok
        ({ winProbability := (wins : ℚ) / (t : ℚ)
           avgAttackerSurvivors := if wins = 0 then 0 else (aS.sum : ℚ) / (wins : ℚ)
           avgDefenderSurvivors :=
             if wins = t then 0 else (dS.sum : ℚ) / ((t - wins : Nat) : ℚ) },
         ⟨((nA, nD),
           { winProbability := (wins : ℚ) / (t : ℚ)
             avgAttackerSurvivors := if wins = 0 then 0 else (aS.sum : ℚ) / (wins : ℚ)
             avgDefenderSurvivors :=
               if wins = t then 0 else (dS.sum : ℚ) / ((t - wins : Nat) : ℚ) }) ::
            st.cache, g'⟩) ∧
      0 ≤ (wins : ℚ) / (t : ℚ) ∧ (wins : ℚ) / (t : ℚ) ≤ 1 := by
  have hv := runTrials_victory_le t nA nD st.rng
  have hagg : aggregate t (runTrials t nA nD st.rng).1 (runTrials t nA nD st.rng).2.1
      (runTrials t nA nD st.rng).2.2.1 =
      { winProbability := ((runTrials t nA nD st.rng).2.2.1 : ℚ) / (t : ℚ)
        avgAttackerSurvivors := if (runTrials t nA nD st.rng).2.2.1 = 0 then 0
          else ((runTrials t nA nD st.rng).1.sum : ℚ) / ((runTrials t nA nD st.rng).2.2.1 : ℚ)
        avgDefenderSurvivors := if (runTrials t nA nD st.rng).2.2.1 = t then 0
          else ((runTrials t nA nD st.rng).2.1.sum : ℚ) /
            ((t - (runTrials t nA nD st.rng).2.2.1 : Nat) : ℚ) } := by
    unfold aggregate
    simp only [BattleStats.mk.injEq]
    refine ⟨trivial, ?_, ?_⟩
    · by_cases h0 : (runTrials t nA nD st.rng).2.2.1 = 0 <;> simp [h0]
    · by_cases h0 : (runTrials t nA nD st.rng).2.2.1 = t
      · rw [if_pos h0,
          if_neg (by omega : ¬ t - (runTrials t nA nD st.rng).2.2.1 ≠ 0)]
      · rw [if_neg h0,
          if_pos (by omega : t - (runTrials t nA nD st.rng).2.2.1 ≠ 0)]
  refine ⟨(runTrials t nA nD st.rng).1, (runTrials t nA nD st.rng).2.1,
    (runTrials t nA nD st.rng).2.2.1, (runTrials t nA nD st.rng).2.2.2, rfl, hv, ?_, ?_, ?_⟩
  · rw [simulate_miss nA nD t st hc (by omega), hagg]
  · positivity
  · rw [div_le_one (by positivity)]
    exact_mod_cast hv

/-- Witness for C5 at the fresh call `simulate 2 1 1`. -/
theorem c5_aggregation_witness :
    1 ≤ 2 ∧ 1 ≤ 1 ∧
    (∃ aS dS wins g', runTrials 1 2 1 init0.rng = (aS, dS, wins, g') ∧ wins ≤ 1 ∧
      simulate 2 1 1 init0 = .ok
        ({ winProbability := (wins : ℚ) / (1 : Nat)
           avgAttackerSurvivors := if wins = 0 then 0 else (aS.sum : ℚ) / (wins : ℚ)
           avgDefenderSurvivors :=
             if wins = 1 then 0 else (dS.sum : ℚ) / ((1 - wins : Nat) : ℚ) },
         ⟨[((2, 1),
           { winProbability := (wins : ℚ) / (1 : Nat)
             avgAttackerSurvivors := if wins = 0 then 0 else (aS.sum : ℚ) / (wins : ℚ)
             avgDefenderSurvivors :=
               if wins = 1 then 0 else (dS.sum : ℚ) / ((1 - wins : Nat) : ℚ) })], g'⟩) ∧
      0 ≤ (wins : ℚ) / (1 : Nat) ∧ (wins : ℚ) / (1 : Nat) ≤ 1) :=
  ⟨by omega, by omega, c5_aggregation 2 1 1 init0 (by omega) (by omega) (by omega) rfl⟩

/-- C6: termination. Whenever the inner battle loop is entered (`a > 1` and
`d > 0`), one exchange strictly decreases `a + d`, and the loop run with
fuel `a + d + 1` completes (never exhausts its fuel), so every trial — and
hence `simulate` — terminates. -/
theorem c6_termination (a d : Nat) (g : RNG) (ha : 1 < a) (hd : 0 < d) :
    (battleRound a d g).1 + (battleRound a d g).2.1 < a + d ∧
    (runBattleAux (a + d + 1) a d g).isSome = true :=
  ⟨battleRound_sum_lt a d g ha hd, runBattleAux_isSome (a + d + 1) a d g (by omega)⟩

/-- Witness for C6 at `a = 2`, `d = 1`. -/
theorem c6_termination_witness :
    1 < 2 ∧ 0 < 1 ∧
    ((battleRound 2 1 rng0).1 + (battleRound 2 1 rng0).2.1 < 2 + 1 ∧
     (runBattleAux (2 + 1 + 1) 2 1 rng0).isSome = true) :=
  ⟨by omega, by omega, c6_termination 2 1 rng0 (by omega) (by omega)⟩

/-- C7 (amended): of the base-class per-turn decision methods,
`initial_placement`, `reinforce` and `attack` raise `NotImplementedError`
when invoked directly; `freemove` does NOT — it has a default implementation
returning `None` (a legitimate skip). -/
theorem c7_base_class_decisions :
    (∀ e r, AI.initial_placement e r = .error .notImplementedError) ∧
    (∀ n, AI.reinforce n = .error .notImplementedError) ∧
    AI.attack = .error .notImplementedError ∧
    AI.freemove = .ok none :=
  ⟨fun _ _ => rfl, fun _ => rfl, rfl, rfl⟩

/-- Counterexample to C7 as stated: invoking `freemove` on the base AI class
returns `None` (a valid "no action" decision); it does not signal a
not-implemented error. -/
theorem c7_counterexample :
    AI.freemove = .ok none ∧ AI.freemove ≠ .error .notImplementedError :=
  ⟨rfl, fun h => Except.noConfusion h⟩

/-- C8 (amended): for every `available ≥ 0`, if the agent owns at least one
border territory (and, for `BetterAI`, each owned border territory's area
name occurs in `area_priority`, which `start()` guarantees), then both
`BetterAI.reinforce` and `StupidAI.reinforce` return a mapping whose (`Nat`,
hence non-negative) values sum exactly to `available` and whose keys are all
territories owned by the agent. -/
theorem c8_reinforce_contract (s : BetterAIState) (cs cs' : Nat → Nat) (available : Nat)
    (hb : ∃ t ∈ s.player.territories, t.border = true)
    (hn : ∀ t ∈ s.player.territories, t.border = true →
      s.area_priority.contains t.area.name = true) :
    (∃ m, BetterAI.reinforce s cs available = .ok m ∧
      (m.map Prod.snd).sum = available ∧ ∀ x ∈ m, x.1 ∈ s.player.territories) ∧
    (∃ m, StupidAI.reinforce s.player cs' available = .ok m ∧
      (m.map Prod.snd).sum = available ∧ ∀ x ∈ m, x.1 ∈ s.player.territories) := by
  constructor
  · obtain ⟨pr, hpr, hprne, hprsub⟩ := priority_ok s hb hn
    obtain ⟨m, hm, hsum, hkeys⟩ := reinforceLoop_ok pr cs hprne available 0 []
    refine ⟨m, ?_, ?_, ?_⟩
    · unfold BetterAI.reinforce
      rw [hpr]
      exact hm
    · simpa using hsum
    · intro x hx
      rcases hkeys x hx with hk | hk
      · simp at hk
      · exact hprsub x.1 hk
  · have hbne : s.player.territories.filter (fun t => t.border) ≠ [] := by
      obtain ⟨t, htm, htb⟩ := hb
      intro hempty
      have hmem : t ∈ s.player.territories.filter (fun t => t.border) :=
        List.mem_filter.mpr ⟨htm, htb⟩
      rw [hempty] at hmem
      cases hmem
    obtain ⟨m, hm, hsum, hkeys⟩ :=
      reinforceLoop_ok (s.player.territories.filter (fun t => t.border)) cs' hbne available 0 []
    refine ⟨m, hm, by simpa using hsum, ?_⟩
    intro x hx
    rcases hkeys x hx with hk | hk
    · simp at hk
    · exact (List.mem_filter.mp hk).1

/-- Witness for C8: an agent owning a single border territory distributes
`available = 2` pieces. -/
theorem c8_reinforce_contract_witness :
    (∃ t ∈ sB.player.territories, t.border = true) ∧
    ((∃ m, BetterAI.reinforce sB c0 2 = .ok m ∧
      (m.map Prod.snd).sum = 2 ∧ ∀ x ∈ m, x.1 ∈ sB.player.territories) ∧
     (∃ m, StupidAI.reinforce sB.player c0 2 = .ok m ∧
      (m.map Prod.snd).sum = 2 ∧ ∀ x ∈ m, x.1 ∈ sB.player.territories)) :=
  ⟨by decide, c8_reinforce_contract sB c0 c0 2 (by decide) (by decide)⟩

/-- Counterexample to C8 as stated: an agent with a non-empty owned set but
no border territory (e.g. a player owning the whole map). `BetterAI.reinforce`
raises `IndexError` inside `priority()` even for `available = 0`, instead of
returning a mapping. -/
theorem c8_counterexample :
    pNB.territories ≠ [] ∧
    BetterAI.reinforce ⟨pNB, ["X"]⟩ c0 0 = .error .indexError :=
  ⟨by decide, rfl⟩

/-- C9 (amended): initial placement. Given a non-empty empty-territories
list, `BetterAI.initial_placement` (provided the listed territories' area
names occur in `area_priority`, which `start()` guarantees) and
`StupidAI.initial_placement` return a member of that list. Given an
empty/absent list, `BetterAI` returns an owned territory provided the agent
owns a border territory (with the same area-name proviso), and `StupidAI`
returns an owned territory provided the owned set is non-empty. -/
theorem c9_initial_placement_contract (s : BetterAIState) (cs cs' : Nat → Nat) :
    (∀ e es, (∀ u ∈ e :: es, s.area_priority.contains u.area.name = true) →
      ∃ t ∈ e :: es, BetterAI.initial_placement s cs (some (e :: es)) = .ok t) ∧
    (∀ e es, ∃ t ∈ e :: es, StupidAI.initial_placement s.player cs' (some (e :: es)) = .ok t) ∧
    ((∃ t ∈ s.player.territories, t.border = true) →
     (∀ t ∈ s.player.territories, t.border = true →
       s.area_priority.contains t.area.name = true) →
      ∃ t ∈ s.player.territories, BetterAI.initial_placement s cs none = .ok t) ∧
    (s.player.territories ≠ [] →
      ∃ t ∈ s.player.territories, StupidAI.initial_placement s.player cs' none = .ok t) := by
  refine ⟨?_, ?_, ?_, ?_⟩
  · intro e es hall
    have hallb : (e :: es).all (fun u => s.area_priority.contains u.area.name) = true := by
      rw [List.all_eq_true]
      exact hall
    have hne : sortByKey (fun u => s.area_priority.indexOf u.area.name) (e :: es) ≠ [] := by
      intro hempty
      have hl := sortByKey_length (fun u => s.area_priority.indexOf u.area.name) (e :: es)
      rw [hempty] at hl
      simp at hl
    refine ⟨(sortByKey (fun u => s.area_priority.indexOf u.area.name) (e :: es)).headD default,
      (sortByKey_mem _ _ _).mp (headD_mem _ default hne), ?_⟩
    unfold BetterAI.initial_placement
    dsimp only
    rw [if_pos hallb]
  · intro e es
    exact randomChoice_mem cs' 0 (e :: es) (by simp)
  · intro hb hn
    obtain ⟨pr, hpr, hprne, hprsub⟩ := priority_ok s hb hn
    obtain ⟨t, htm, hrc⟩ := randomChoice_mem cs 0 pr hprne
    refine ⟨t, hprsub t htm, ?_⟩
    unfold BetterAI.initial_placement
    dsimp only
    rw [hpr]
    exact hrc
  · intro hne
    exact randomChoice_mem cs' 0 s.player.territories hne

/-- Witness for C9: an agent owning a single border territory places on an
owned territory when no empty territory remains. -/
theorem c9_initial_placement_contract_witness :
    (∃ t ∈ pB.territories, BetterAI.initial_placement sB c0 none = .ok t) ∧
    (∃ t ∈ pB.territories, StupidAI.initial_placement pB c0 none = .ok t) :=
  ⟨(c9_initial_placement_contract sB c0 c0).2.2.1 (by decide) (by decide),
   (c9_initial_placement_contract sB c0 c0).2.2.2 (by decide)⟩

/-- Counterexample to C9 as stated: with a non-empty owned set containing no
border territory and an absent empty-territories list,
`BetterAI.initial_placement` raises `IndexError` inside `priority()` instead
of returning an owned territory. -/
theorem c9_counterexample :
    pNB.territories ≠ [] ∧
    BetterAI.initial_placement ⟨pNB, ["X"]⟩ c0 none = .error .indexError :=
  ⟨by decide, rfl⟩

/-- C10: the cache key ignores the `trials` argument. Once
`simulate a d t₁` has populated the cache, `simulate a d t₂` for ANY `t₂`
(including `t₂ ≠ t₁`) returns the statistics computed with `t₁` trials, with
the state unchanged, instead of simulating with `t₂` trials. -/
theorem c10_cache_key_ignores_trials (a d t₁ : Nat) (st : SimState) (stats : BattleStats)
    (st' : SimState) (h : simulate a d t₁ st = .ok (stats, st')) (t₂ : Nat) :
    simulate a d t₂ st' = .ok (stats, st') :=
  simulate_hit a d t₂ st' stats (simulate_stores a d t₁ st stats st' h)

/-- The stats computed by the first concrete call of the C10 witness. -/
def stats2 : BattleStats := aggregate 1 [] (List.replicate 1 2) 0

/-- The state after the first concrete call of the C10 witness. -/
def st2 : SimState := ⟨[((1, 2), stats2)], rng0⟩

/-- Witness for C10: after `simulate 1 2 1`, the call `simulate 1 2 7` with
a different trial count returns the 1-trial statistics unchanged. -/
theorem c10_cache_key_ignores_trials_witness :
    simulate 1 2 1 init0 = .ok (stats2, st2) ∧
    simulate 1 2 7 st2 = .ok (stats2, st2) :=
  have hsim : simulate 1 2 1 init0 = .ok (stats2, st2) :=
    simulate_one_atk 2 1 init0 (by omega) (by omega) rfl
  ⟨hsim, c10_cache_key_ignores_trials 1 2 1 init0 stats2 st2 hsim 7⟩

end RLRisk
